import Mathlib

/-!
Verification development for the UDIN document-submission application.

Shallow embedding of:
* `backend/services/authService.js` — registration, OTP issue/verify/resend;
* `backend/routes/uploads.js` (route + `UploadController.uploadFiles`) —
  batch file upload with content-hash deduplication;
* the client payment page (`Payment` component) — pricing computation and
  the deduplicated upload render list;
* the second copy of the auth service embedded at the end of
  `client/pages/Signup.tsx`, whose `registerUser` differs from the backend one.

External effects are made explicit: MongoDB collections become lists in
insertion order (`findOne` = first match), `Date.now()` and every random
value (`crypto.randomBytes`, `Math.random`, bcrypt hash, generated ids)
become parameters, `fs` temp storage becomes a list of paths, and
`jwt.sign` becomes an injective tagging function.  Floating-point numbers
are modelled by exact rationals; on every concrete input appearing below
the double-precision computation agrees with the rational one.
-/

/-- A stored `User` document.  Mongo `_id` is modelled by `userId`;
`lastLogin` is a millisecond timestamp when set.  The
`emailVerificationToken` / `emailVerificationExpires` fields are only
written by the Signup.tsx copy of the service. -/
structure UserRec where
  userId : String
  name : String
  email : String
  mobile : String
  password : String
  address : String
  isEmailVerified : Bool
  lastLogin : Option Nat
  emailVerificationToken : Option String
  emailVerificationExpires : Option Nat
  deriving DecidableEq

/-- A stored `EmailVerification` document: one-time code, owning email,
verification identifier, absolute expiry in milliseconds. -/
structure EmailVerificationRec where
  email : String
  otp : String
  verificationId : String
  expiresAt : Nat
  deriving DecidableEq

/-- The auth-relevant database state: the users and email-verification
collections, in insertion order. -/
structure AuthState where
  users : List UserRec
  verifications : List EmailVerificationRec
  deriving DecidableEq

/-- `jwt.sign({ id }, secret)`: an opaque session token bound to the id. -/
def generateToken (id : String) : String :=
  "jwt." ++ id

/-- `Math.floor(100000 + Math.random() * 900000)` where `r` stands for the
`Math.random()` draw (so `0 ≤ r < 1`). -/
def genOtp (r : ℚ) : ℕ :=
  (Int.floor ((100000 : ℚ) + r * 900000)).toNat

/-- `.toString()` applied to the generated OTP number. -/
def genOtpStr (r : ℚ) : String :=
  toString (genOtp r)

/-- Replace the first element satisfying `p` by its image under `f`
(the effect of mutating the document returned by `findOne` and saving). -/
def updateFirst (p : α → Bool) (f : α → α) : List α → List α
  | [] => []
  | x :: xs => if p x then f x :: xs else x :: updateFirst p f xs

/-- Data submitted to registration. -/
structure RegisterData where
  name : String
  email : String
  mobile : String
  password : String
  address : String
  deriving DecidableEq

/-- Result of backend `registerUser`. -/
structure RegisterResult where
  userId : String
  email : String
  mobile : String
  isEmailVerified : Bool
  verificationId : String
  tempPassword : String
  deriving DecidableEq

/-- `authService.registerUser` (backend/services/authService.js, lines
17-87).  `userId` models `User.generateUserId()`, `tempPassword` the random
`crypto.randomBytes(8)` draw, `hashedTempPassword` its bcrypt hash,
`verificationId` the random `crypto.randomBytes(16)` draw, `r` the
`Math.random()` draw behind the OTP, `now` is `Date.now()`.  The
`sendEmail` call is commented out in the source. -/
def registerUser (data : RegisterData) (userId tempPassword hashedTempPassword verificationId : String)
    (r : ℚ) (now : ℕ) (st : AuthState) : AuthState × Except String RegisterResult :=
  match st.users.find? (fun u => decide (u.email = data.email ∨ u.mobile = data.mobile)) with
  | some _ => (st, .error "User already exists with this email or mobile number")
  | none =>
    let user : UserRec :=
      { userId, name := data.name, email := data.email, mobile := data.mobile,
        password := hashedTempPassword, address := data.address,
        isEmailVerified := false, lastLogin := none,
        emailVerificationToken := none, emailVerificationExpires := none }
    let rec0 : EmailVerificationRec :=
      { email := data.email, otp := genOtpStr r, verificationId,
        expiresAt := now + 15 * 60 * 1000 }
    ({ users := st.users ++ [user], verifications := st.verifications ++ [rec0] },
     .ok { userId, email := data.email, mobile := data.mobile,
           isEmailVerified := false, verificationId, tempPassword })

/-- Result of the Signup.tsx copy of `registerUser`. -/
structure RegisterResultCopy where
  userId : String
  email : String
  mobile : String
  isEmailVerified : Bool
  deriving DecidableEq

/-- The `registerUser` of the second auth-service copy embedded in
`client/pages/Signup.tsx` (lines 674-732).  It creates the user with
`isEmailVerified: true`, then stores a link-style email token on the user;
it creates no `EmailVerification` record. -/
def registerUserSignupCopy (data : RegisterData) (userId hashedTempPassword emailToken : String)
    (now : ℕ) (st : AuthState) : AuthState × Except String RegisterResultCopy :=
  match st.users.find? (fun u => decide (u.email = data.email ∨ u.mobile = data.mobile)) with
  | some _ => (st, .error "User already exists with this email or mobile number")
  | none =>
    let user : UserRec :=
      { userId, name := data.name, email := data.email, mobile := data.mobile,
        password := hashedTempPassword, address := data.address,
        isEmailVerified := true, lastLogin := none,
        emailVerificationToken := some emailToken,
        emailVerificationExpires := some (now + 24 * 60 * 60 * 1000) }
    ({ users := st.users ++ [user], verifications := st.verifications },
     .ok { userId, email := data.email, mobile := data.mobile, isEmailVerified := true })

/-- Result of a successful `verifyOtp`. -/
structure VerifyResult where
  message : String
  token : String
  deriving DecidableEq

/-- `authService.verifyOtp` (lines 132-178).  The Mongo query
`{ verificationId, expiresAt: { $gt: Date.now() } }` returns the first
unexpired record with that identifier; `deleteOne` removes the first
record with the identifier; saving the mutated user updates the first
user with the record's email. -/
def verifyOtp (verificationId otp : String) (now : ℕ) (st : AuthState) :
    AuthState × Except String VerifyResult :=
  match st.verifications.find? (fun v => decide (v.verificationId = verificationId ∧ now < v.expiresAt)) with
  | none => (st, .error "Invalid or expired OTP")
  | some v =>
    if v.otp ≠ otp then (st, .error "Invalid OTP")
    else
      match st.users.find? (fun u => decide (u.email = v.email)) with
      | none => (st, .error "User not found")
      | some u =>
        let users' := updateFirst (fun w => decide (w.email = v.email))
          (fun w => { w with isEmailVerified := true, lastLogin := some now }) st.users
        let verifications' := st.verifications.eraseP (fun w => decide (w.verificationId = verificationId))
        ({ users := users', verifications := verifications' },
         .ok { message := "Email verified successfully", token := generateToken u.userId })

/-- Result of `sendOtp` / `resendOtp`. -/
structure SendOtpResult where
  verificationId : String
  email : String
  deriving DecidableEq

/-- `authService.sendOtp` (lines 180-218).  `verificationId` models the
random `crypto.randomBytes(16)` draw, `r` the `Math.random()` draw,
`now` is `Date.now()`.  The `sendEmail` call is commented out. -/
def sendOtp (email verificationId : String) (r : ℚ) (now : ℕ) (st : AuthState) :
    AuthState × Except String SendOtpResult :=
  match st.users.find? (fun u => decide (u.email = email)) with
  | some _ => (st, .error "User already exists with this email")
  | none =>
    ({ st with verifications := st.verifications ++
        [{ email, otp := genOtpStr r, verificationId, expiresAt := now + 15 * 60 * 1000 }] },
     .ok { verificationId, email })

/-- `authService.resendOtp` (lines 221-266).  `deleteMany({ email })`
removes every verification record owned by the email before the fresh
record is inserted. -/
def resendOtp (email verificationId : String) (r : ℚ) (now : ℕ) (st : AuthState) :
    AuthState × Except String SendOtpResult :=
  match st.users.find? (fun u => decide (u.email = email)) with
  | none => (st, .error "No account found with this email address")
  | some u =>
    if u.isEmailVerified then (st, .error "Email is already verified")
    else
      let kept := st.verifications.filter (fun v => decide (v.email ≠ email))
      ({ st with verifications := kept ++
          [{ email, otp := genOtpStr r, verificationId, expiresAt := now + 15 * 60 * 1000 }] },
       .ok { verificationId, email })

/-- A stored `Document` record (fields written by `Document.create` in
`UploadController.uploadFiles`, lines 119-139; the nested `metadata`
sub-document is flattened). -/
structure Document where
  userId : String
  udin : String
  fileName : String
  originalName : String
  fileType : String
  fileSize : Nat
  filePath : String
  documentHash : String
  documentTypeId : String
  tier : String
  uploadIP : String
  userAgent : String
  checksum : String
  originalId : String
  customerInfo : Option String
  pricingSnapshot : Option String
  uploadMetadata : Option String
  deriving DecidableEq

/-- One received multipart file together with the indexed
`fileMetadata[i][...]` body fields belonging to its position.
`documentHash` is the hex sha256 digest of the file's bytes
(`crypto.createHash("sha256")` abstracted); `readErr` (resp. `createErr`)
is `some message` when `fs.readFileSync` (resp. `Document.generateUDIN` /
`Document.create`) throws for this file.  `bodyName` is read by the
controller into `fileMetadata.name` but never used afterwards. -/
structure ReqFile where
  path : String
  filename : String
  originalname : String
  size : Nat
  documentHash : String
  readErr : Option String
  createErr : Option String
  bodyDocumentTypeId : Option String
  bodyTier : Option String
  bodyOriginalId : Option String
  bodyName : Option String
  deriving DecidableEq

/-- JavaScript `x || d` on an optional string: `undefined` and the empty
string both fall back to the default. -/
def jsOrElse (v : Option String) (d : String) : String :=
  match v with
  | some s => if s = "" then d else s
  | none => d

/-- `file.originalname.split(".").pop().toLowerCase()`. -/
def fileTypeOf (name : String) : String :=
  (((name.splitOn ".").getLast?).getD "").toLower

/-- `fs.unlinkSync(path)` on the set of temp-file paths. -/
def unlinkTemp (p : String) (temp : List String) : List String :=
  temp.filter (fun q => decide (q ≠ p))

/-- Modelled from the spec: `Document.generateUDIN` (the backend model file
is not under src/) assigns a unique tracking identifier per accepted file;
`n` is the state's running counter. -/
def generateUDIN (n : Nat) : String :=
  "UDIN-" ++ toString n

/-- Per-file error message for a duplicate content hash (line 110). -/
def dupErrMsg (f : ReqFile) : String :=
  "File \"" ++ f.originalname ++ "\" has already been uploaded"

/-- Per-file error message for a processing exception (line 163). -/
def procErrMsg (f : ReqFile) (m : String) : String :=
  "Failed to process file \"" ++ f.originalname ++ "\": " ++ m

/-- Batch-level request context (lines 67-78): uploader identity and the
body metadata shared by all files of the batch.  The three JSON payloads
are kept as opaque parsed values. -/
structure UploadCtx where
  userId : String
  ip : String
  userAgent : String
  customerInfo : Option String
  pricingSnapshot : Option String
  metadataRaw : Option String
  deriving DecidableEq

/-- Entry pushed to `uploadedDocuments` for an accepted file (lines
141-152; database-generated `_id`, `uploadDate` and `status` omitted). -/
structure UploadedFileInfo where
  udin : String
  fileName : String
  fileSize : Nat
  fileType : String
  documentTypeId : String
  tier : String
  originalId : String
  deriving DecidableEq

/-- Working state of the per-file loop: the documents collection, the
temp-file paths still on disk, the accumulating `uploadedDocuments` and
`errors` arrays, and the UDIN counter. -/
structure ProcState where
  docs : List Document
  temp : List String
  uploaded : List UploadedFileInfo
  errs : List String
  ctr : Nat
  deriving DecidableEq

/-- The `Document` persisted for an accepted file (lines 119-139). -/
def mkDoc (ctx : UploadCtx) (f : ReqFile) (c : Nat) : Document :=
  { userId := ctx.userId, udin := generateUDIN c, fileName := f.filename,
    originalName := f.originalname, fileType := fileTypeOf f.originalname,
    fileSize := f.size, filePath := f.path, documentHash := f.documentHash,
    documentTypeId := jsOrElse f.bodyDocumentTypeId "",
    tier := jsOrElse f.bodyTier "Standard",
    uploadIP := ctx.ip, userAgent := ctx.userAgent, checksum := f.documentHash,
    originalId := jsOrElse f.bodyOriginalId "",
    customerInfo := ctx.customerInfo, pricingSnapshot := ctx.pricingSnapshot,
    uploadMetadata := ctx.metadataRaw }

/-- The `uploadedDocuments` entry for an accepted file (lines 141-152). -/
def mkInfo (ctx : UploadCtx) (f : ReqFile) (c : Nat) : UploadedFileInfo :=
  { udin := generateUDIN c, fileName := f.originalname, fileSize := f.size,
    fileType := fileTypeOf f.originalname,
    documentTypeId := (mkDoc ctx f c).documentTypeId,
    tier := (mkDoc ctx f c).tier, originalId := (mkDoc ctx f c).originalId }

/-- One iteration of the per-file loop (lines 84-166): read the file
(throwing reads are caught), hash it, reject a hash already present in the
documents collection (deleting the temp file, pushing the per-file
duplicate error, `continue`), otherwise generate a UDIN and persist the
record; any processing exception deletes the temp file and pushes a
per-file failure message. -/
def processFile (ctx : UploadCtx) (s : ProcState) (f : ReqFile) : ProcState :=
  match f.readErr with
  | some m =>
    { s with temp := unlinkTemp f.path s.temp, errs := s.errs ++ [procErrMsg f m] }
  | none =>
    match s.docs.find? (fun d => decide (d.documentHash = f.documentHash)) with
    | some _ =>
      { s with temp := unlinkTemp f.path s.temp, errs := s.errs ++ [dupErrMsg f] }
    | none =>
      match f.createErr with
      | some m =>
        { s with temp := unlinkTemp f.path s.temp, errs := s.errs ++ [procErrMsg f m] }
      | none =>
        { s with docs := s.docs ++ [mkDoc ctx f s.ctr],
                 uploaded := s.uploaded ++ [mkInfo ctx f s.ctr],
                 ctr := s.ctr + 1 }

/-- The incoming `POST /api/uploads/files` request after the auth
middleware: express-validator results, the multer file array, and the
`req.user` / body fields the controller reads.  The route
(`backend/routes/uploads.js`, line 11) attaches no validators, so on this
route `validationErrors` is always empty. -/
structure UploadRequest where
  validationErrors : List String
  files : List ReqFile
  userIsEmailVerified : Bool
  userId : String
  ip : String
  userAgent : String
  customerInfo : Option String
  pricingSnapshot : Option String
  metadataRaw : Option String
  deriving DecidableEq

/-- Server-side state touched by the upload controller. -/
structure ServerState where
  documents : List Document
  tempFiles : List String
  udinCtr : Nat
  deriving DecidableEq

/-- The `data` object of the batch response (lines 175-180). -/
structure UploadData where
  uploadedFiles : List UploadedFileInfo
  totalUploaded : Nat
  totalRequested : Nat
  errors : Option (List String)
  deriving DecidableEq

/-- The JSON response of `uploadFiles` (status code, `success`, `message`,
optional `data`). -/
structure UploadResponse where
  status : Nat
  success : Bool
  message : String
  data : Option UploadData
  deriving DecidableEq

/-- The batch context derived from the request. -/
def ctxOf (req : UploadRequest) : UploadCtx :=
  { userId := req.userId, ip := req.ip, userAgent := req.userAgent,
    customerInfo := req.customerInfo, pricingSnapshot := req.pricingSnapshot,
    metadataRaw := req.metadataRaw }

/-- Run the per-file loop of a batch from the server state. -/
def runBatch (ctx : UploadCtx) (st : ServerState) (files : List ReqFile) : ProcState :=
  files.foldl (processFile ctx)
    { docs := st.documents, temp := st.tempFiles, uploaded := [], errs := [], ctr := st.udinCtr }

/-- `UploadController.uploadFiles` (lines 32-203): reject on validation
errors, reject an empty batch, delete every temp file and reject when the
uploader's email is unverified, otherwise run the per-file loop and answer
201 when at least one file was accepted and 400 otherwise. -/
def uploadFiles (req : UploadRequest) (st : ServerState) : ServerState × UploadResponse :=
  if req.validationErrors ≠ [] then
    (st, { status := 400, success := false, message := "Validation failed", data := none })
  else if req.files = [] then
    (st, { status := 400, success := false, message := "No files uploaded", data := none })
  else if req.userIsEmailVerified = false then
    ({ st with tempFiles := req.files.foldl (fun t f => unlinkTemp f.path t) st.tempFiles },
     { status := 400, success := false,
       message := "Please verify your email before uploading documents", data := none })
  else
    let fin := runBatch (ctxOf req) st req.files
    ({ documents := fin.docs, tempFiles := fin.temp, udinCtr := fin.ctr },
     { status := if 0 < fin.uploaded.length then 201 else 400,
       success := decide (0 < fin.uploaded.length),
       message := if 0 < fin.uploaded.length then
           "Successfully uploaded " ++ toString fin.uploaded.length ++ " file(s)"
         else "No files were uploaded successfully",
       data := some { uploadedFiles := fin.uploaded, totalUploaded := fin.uploaded.length,
                      totalRequested := req.files.length,
                      errors := if fin.errs = [] then none else some fin.errs } })

/-- An entry of the shared `DOCUMENT_TYPES` table (`@shared/pricing`, not
under src/; used as data by the payment page).  `basePrice` is optional
because the page guards with `doc?.basePrice`. -/
structure DocType where
  id : String
  name : String
  basePrice : Option ℚ
  udinRequired : Bool
  deriving DecidableEq

/-- `tierMultiplier` (Payment component, lines 52-56): Express ×1.5,
Premium ×2, anything else (Standard or undefined) ×1.  At runtime the tier
is a string, so it is modelled as `Option String`. -/
def tierMultiplier (tier : Option String) : ℚ :=
  if tier = some "Express" then 3 / 2
  else if tier = some "Premium" then 2
  else 1

/-- JavaScript `Math.round` on the exact rational value. -/
def jsRound (x : ℚ) : ℤ :=
  Int.floor (x + 1 / 2)

/-- The `documentTypeId`/`tier` pair `computeFilePriceINR` reads. -/
structure PayFile where
  documentTypeId : Option String
  tier : Option String
  deriving DecidableEq

/-- `computeFilePriceINR` (lines 58-62): look the document type up; when
the type is missing or its `basePrice` is falsy (absent or 0) return the
fallback, else `Math.round(basePrice * tierMultiplier(tier))`. -/
def computeFilePriceINR (docTypes : List DocType) (f : PayFile) (fallbackUnitPrice : ℤ) : ℤ :=
  match docTypes.find? (fun d => decide (f.documentTypeId = some d.id)) with
  | none => fallbackUnitPrice
  | some d =>
    match d.basePrice with
    | none => fallbackUnitPrice
    | some bp => if bp = 0 then fallbackUnitPrice else jsRound (bp * tierMultiplier f.tier)

/-- `unitPrice` (line 233): default fallback price. -/
def unitPrice : ℤ := 100

/-- `taxRate` (line 234): 18% GST. -/
def taxRate : ℚ := 18 / 100

/-- `stableItemKey` (lines 230-231):
`source + ":" + parts.filter(Boolean).join("|")`. -/
def stableItemKey (source : String) (parts : List (Option String)) : String :=
  source ++ ":" ++ String.intercalate "|" ((parts.filterMap id).filter (fun s => decide (s ≠ "")))

/-- A line item of `pricingState.currentOrder`. -/
structure OrderItem where
  fileId : Option String
  documentTypeId : Option String
  fileName : Option String
  tier : Option String
  deriving DecidableEq

/-- An item rendered on the payment page. -/
structure RenderedOrderItem where
  id : String
  name : String
  subtitle : Option String
  price : ℤ
  tier : Option String
  udinRequired : Bool
  deriving DecidableEq

/-- `normalizedOrderItems` (lines 248-272): per order item build the
stable identity (`fileId`, else `documentTypeId|fileName-or-index|tier`),
namespace it with `stableItemKey "order"`, and price the item with
`computeFilePriceINR` against the `unitPrice` fallback. -/
def normalizedOrderItems (docTypes : List DocType) (itemsFromOrder : List OrderItem) :
    List RenderedOrderItem :=
  itemsFromOrder.enum.map (fun p =>
    let i := p.1
    let it := p.2
    let identity := jsOrElse it.fileId
      (jsOrElse it.documentTypeId "doc" ++ "|" ++ jsOrElse it.fileName (toString i) ++ "|" ++
        jsOrElse it.tier "Standard")
    let doc := docTypes.find? (fun d => decide (it.documentTypeId = some d.id))
    { id := stableItemKey "order" [some identity],
      name := (doc.map (fun d => d.name)).getD "Document",
      subtitle := it.fileName,
      price := computeFilePriceINR docTypes
        { documentTypeId := it.documentTypeId, tier := it.tier } unitPrice,
      tier := it.tier,
      udinRequired := (doc.map (fun d => d.udinRequired)).getD false })

/-- `subtotal` (lines 298-303) without a server-supplied calculation:
`items.reduce((s, it) => s + (Number(it.price) || 0), 0)` (prices are
integers, so the falsy guard is the identity). -/
def subtotalOf (items : List RenderedOrderItem) : ℤ :=
  items.foldl (fun s it => s + it.price) 0

/-- `gstAmount` (lines 305-310) without a server-supplied calculation:
`Math.round(subtotal * taxRate)`. -/
def gstAmountOf (subtotal : ℤ) : ℤ :=
  jsRound ((subtotal : ℚ) * taxRate)

/-- `totalAmount` (lines 312-317) without a server-supplied calculation. -/
def totalAmountOf (subtotal gst : ℤ) : ℤ :=
  subtotal + gst

/-- A file as seen by the upload-dialog render list
(`validFilesFromCtx` context entries and IndexedDB entries). -/
structure SrcFile where
  id : Option String
  name : Option String
  size : Option Nat
  deriving DecidableEq

/-- A row of the upload-dialog render list: the namespaced React key and
the identity used for de-duplication. -/
structure RenderEntry where
  renderKey : String
  identity : String
  name : Option String
  size : Option Nat
  deriving DecidableEq

/-- One mapped entry of `uploadRenderList` (lines 323-335):
`_renderKey` is the source-namespaced identity, `_identity` is
`f.id ?? f.name ?? i` (nullish coalescing, so an empty string is kept). -/
def entryOf (source : String) (i : Nat) (f : SrcFile) : RenderEntry :=
  let ident := ((f.id).orElse (fun _ => f.name)).getD (toString i)
  { renderKey := source ++ ":" ++ ident, identity := ident, name := f.name, size := f.size }

/-- The de-duplication filter of `uploadRenderList` (lines 338-343): keep
an entry when its identity has not been seen yet. -/
def dedupeByIdentity (seen : List String) : List RenderEntry → List RenderEntry
  | [] => []
  | f :: fs =>
    if f.identity ∈ seen then dedupeByIdentity seen fs
    else f :: dedupeByIdentity (f.identity :: seen) fs

/-- `uploadRenderList` (lines 322-346): map both sources to namespaced
entries, then de-duplicate the concatenation by true identity. -/
def uploadRenderList (ctxFiles idbFiles : List SrcFile) : List RenderEntry :=
  let ctx := ctxFiles.enum.map (fun p => entryOf "ctx" p.1 p.2)
  let idb := idbFiles.enum.map (fun p => entryOf "idb" p.1 p.2)
  dedupeByIdentity [] (ctx ++ idb)

/-- Each loop iteration either only records one error and deletes the
file's temp path, or only accepts the file (appending the persisted
document and the response entry and advancing the UDIN counter). -/
theorem processFile_char (ctx : UploadCtx) (f : ReqFile) (d : List Document) (c : Nat) :
    (∃ e, ∀ (t : List String) (u : List UploadedFileInfo) (er : List String),
        processFile ctx ⟨d, t, u, er, c⟩ f = ⟨d, unlinkTemp f.path t, u, er ++ [e], c⟩) ∨
    (∀ (t : List String) (u : List UploadedFileInfo) (er : List String),
        processFile ctx ⟨d, t, u, er, c⟩ f =
          ⟨d ++ [mkDoc ctx f c], t, u ++ [mkInfo ctx f c], er, c + 1⟩) := by
  cases hr : f.readErr with
  | some m => exact Or.inl ⟨procErrMsg f m, fun t u er => by simp [processFile, hr]⟩
  | none =>
    cases hf : d.find? (fun d0 => decide (d0.documentHash = f.documentHash)) with
    | some d0 => exact Or.inl ⟨dupErrMsg f, fun t u er => by simp [processFile, hr, hf]⟩
    | none =>
      cases hc : f.createErr with
      | some m => exact Or.inl ⟨procErrMsg f m, fun t u er => by simp [processFile, hr, hf, hc]⟩
      | none => exact Or.inr (fun t u er => by simp [processFile, hr, hf, hc])

/-- Two runs of the loop that start from states agreeing on the documents
collection and the UDIN counter stay in lock step: they end with the same
documents and counter, and extend their initial uploaded/error arrays by
the same suffixes. -/
theorem foldl_processFile_frame (ctx : UploadCtx) :
    ∀ (fs : List ReqFile) (d : List Document) (c : Nat) (t₁ t₂ : List String)
      (u₁ u₂ : List UploadedFileInfo) (e₁ e₂ : List String),
      (List.foldl (processFile ctx) ⟨d, t₁, u₁, e₁, c⟩ fs).docs =
        (List.foldl (processFile ctx) ⟨d, t₂, u₂, e₂, c⟩ fs).docs ∧
      (List.foldl (processFile ctx) ⟨d, t₁, u₁, e₁, c⟩ fs).ctr =
        (List.foldl (processFile ctx) ⟨d, t₂, u₂, e₂, c⟩ fs).ctr ∧
      (∃ du, (List.foldl (processFile ctx) ⟨d, t₁, u₁, e₁, c⟩ fs).uploaded = u₁ ++ du ∧
             (List.foldl (processFile ctx) ⟨d, t₂, u₂, e₂, c⟩ fs).uploaded = u₂ ++ du) ∧
      (∃ de, (List.foldl (processFile ctx) ⟨d, t₁, u₁, e₁, c⟩ fs).errs = e₁ ++ de ∧
             (List.foldl (processFile ctx) ⟨d, t₂, u₂, e₂, c⟩ fs).errs = e₂ ++ de) := by
  intro fs
  induction fs with
  | nil => exact fun d c t₁ t₂ u₁ u₂ e₁ e₂ =>
      ⟨rfl, rfl, ⟨[], by simp, by simp⟩, ⟨[], by simp, by simp⟩⟩
  | cons f fs ih =>
    intro d c t₁ t₂ u₁ u₂ e₁ e₂
    simp only [List.foldl_cons]
    rcases processFile_char ctx f d c with ⟨e, he⟩ | hacc
    · rw [he t₁ u₁ e₁, he t₂ u₂ e₂]
      obtain ⟨hd, hc, ⟨du, hu₁, hu₂⟩, ⟨de, he₁, he₂⟩⟩ :=
        ih d c (unlinkTemp f.path t₁) (unlinkTemp f.path t₂) u₁ u₂ (e₁ ++ [e]) (e₂ ++ [e])
      exact ⟨hd, hc, ⟨du, hu₁, hu₂⟩,
        ⟨[e] ++ de, by rw [he₁, List.append_assoc], by rw [he₂, List.append_assoc]⟩⟩
    · rw [hacc t₁ u₁ e₁, hacc t₂ u₂ e₂]
      obtain ⟨hd, hc, ⟨du, hu₁, hu₂⟩, ⟨de, he₁, he₂⟩⟩ :=
        ih (d ++ [mkDoc ctx f c]) (c + 1) t₁ t₂
          (u₁ ++ [mkInfo ctx f c]) (u₂ ++ [mkInfo ctx f c]) e₁ e₂
      exact ⟨hd, hc,
        ⟨[mkInfo ctx f c] ++ du, by rw [hu₁, List.append_assoc], by rw [hu₂, List.append_assoc]⟩,
        ⟨de, he₁, he₂⟩⟩

/-- A path absent from the temp storage stays absent across one
iteration. -/
theorem processFile_temp_mono (ctx : UploadCtx) (s : ProcState) (f : ReqFile) (p : String)
    (hp : p ∉ s.temp) : p ∉ (processFile ctx s f).temp := by
  obtain ⟨d, t, u, er, c⟩ := s
  rcases processFile_char ctx f d c with ⟨e, he⟩ | hacc
  · rw [he t u er]
    intro hmem
    exact hp (List.mem_filter.mp hmem).1
  · rw [hacc t u er]
    exact hp

/-- A path absent from the temp storage stays absent across the loop. -/
theorem foldl_processFile_temp_mono (ctx : UploadCtx) :
    ∀ (fs : List ReqFile) (s : ProcState) (p : String),
      p ∉ s.temp → p ∉ (List.foldl (processFile ctx) s fs).temp := by
  intro fs
  induction fs with
  | nil => exact fun s p hp => hp
  | cons f fs ih =>
    intro s p hp
    exact ih (processFile ctx s f) p (processFile_temp_mono ctx s f p hp)

/-- The loop only appends to the documents collection. -/
theorem foldl_processFile_docs_mono (ctx : UploadCtx) :
    ∀ (fs : List ReqFile) (s : ProcState),
      ∃ tl, (List.foldl (processFile ctx) s fs).docs = s.docs ++ tl := by
  intro fs
  induction fs with
  | nil => exact fun s => ⟨[], by simp⟩
  | cons f fs ih =>
    intro s
    obtain ⟨d, t, u, er, c⟩ := s
    simp only [List.foldl_cons]
    rcases processFile_char ctx f d c with ⟨e, he⟩ | hacc
    · rw [he t u er]
      exact ih _
    · rw [hacc t u er]
      obtain ⟨tl, htl⟩ := ih ⟨d ++ [mkDoc ctx f c], t, u ++ [mkInfo ctx f c], er, c + 1⟩
      exact ⟨[mkDoc ctx f c] ++ tl, by rw [htl, List.append_assoc]⟩

/-- Every file of the batch contributes exactly one outcome: one uploaded
entry or one error message. -/
theorem foldl_processFile_partition (ctx : UploadCtx) :
    ∀ (fs : List ReqFile) (s : ProcState),
      (List.foldl (processFile ctx) s fs).uploaded.length +
        (List.foldl (processFile ctx) s fs).errs.length =
      s.uploaded.length + s.errs.length + fs.length := by
  intro fs
  induction fs with
  | nil => exact fun s => by simp
  | cons f fs ih =>
    intro s
    obtain ⟨d, t, u, er, c⟩ := s
    simp only [List.foldl_cons]
    rcases processFile_char ctx f d c with ⟨e, he⟩ | hacc
    · rw [he t u er]
      have := ih ⟨d, unlinkTemp f.path t, u, er ++ [e], c⟩
      simp only [this]
      simp [List.length_append]
      omega
    · rw [hacc t u er]
      have := ih ⟨d ++ [mkDoc ctx f c], t, u ++ [mkInfo ctx f c], er, c + 1⟩
      simp only [this]
      simp [List.length_append]
      omega

/-- `uploadFiles` on a validated, non-empty batch from a verified user
reduces to the per-file loop and the final response assembly. -/
theorem uploadFiles_main (st : ServerState) (req : UploadRequest)
    (hval : req.validationErrors = []) (hver : req.userIsEmailVerified = true)
    (hne : req.files ≠ []) :
    uploadFiles req st =
      ({ documents := (runBatch (ctxOf req) st req.files).docs,
         tempFiles := (runBatch (ctxOf req) st req.files).temp,
         udinCtr := (runBatch (ctxOf req) st req.files).ctr },
       { status := if 0 < (runBatch (ctxOf req) st req.files).uploaded.length then 201 else 400,
         success := decide (0 < (runBatch (ctxOf req) st req.files).uploaded.length),
         message := if 0 < (runBatch (ctxOf req) st req.files).uploaded.length then
             "Successfully uploaded " ++ toString (runBatch (ctxOf req) st req.files).uploaded.length ++ " file(s)"
           else "No files were uploaded successfully",
         data := some { uploadedFiles := (runBatch (ctxOf req) st req.files).uploaded,
                        totalUploaded := (runBatch (ctxOf req) st req.files).uploaded.length,
                        totalRequested := req.files.length,
                        errors := if (runBatch (ctxOf req) st req.files).errs = [] then none
                                  else some (runBatch (ctxOf req) st req.files).errs } }) := by
  rw [uploadFiles, if_neg (by rw [hval]; simp), if_neg hne, if_neg (by rw [hver]; simp)]

/-- The path of a processed file never survives the unverified-user
cleanup, which unlinks every received file. -/
theorem not_mem_unlinkTemp (p : String) (t : List String) : p ∉ unlinkTemp p t := by
  intro h
  have := (List.mem_filter.mp h).2
  simp at this

/-- `unlinkTemp` never adds paths. -/
theorem unlinkTemp_sub (p q : String) (t : List String) (h : p ∉ t) : p ∉ unlinkTemp q t := by
  intro hmem
  exact h (List.mem_filter.mp hmem).1

/-- The unverified-user cleanup fold preserves absence of a path. -/
theorem foldl_unlink_preserves (p : String) :
    ∀ (fs : List ReqFile) (t : List String), p ∉ t →
      p ∉ fs.foldl (fun t g => unlinkTemp g.path t) t := by
  intro fs
  induction fs with
  | nil => exact fun t h => h
  | cons g fs ih => exact fun t h => ih (unlinkTemp g.path t) (unlinkTemp_sub p g.path t h)

/-- After the unverified-user cleanup no received file's path remains. -/
theorem foldl_unlink_not_mem (f : ReqFile) :
    ∀ (fs : List ReqFile) (t : List String), f ∈ fs →
      f.path ∉ fs.foldl (fun t g => unlinkTemp g.path t) t := by
  intro fs
  induction fs with
  | nil => intro t h; cases h
  | cons g fs ih =>
    intro t h
    rcases List.mem_cons.mp h with rfl | hmem
    · exact foldl_unlink_preserves f.path fs (unlinkTemp f.path t) (not_mem_unlinkTemp _ _)
    · exact ih (unlinkTemp g.path t) hmem

/-- C2: For every upload batch submitted by a user whose email-verified
flag is false, every received temporary file is deleted, the call returns
status 400 with success=false, and no Document record is created for any
file in the batch.  (The route attaches no express-validator checks, so
`validationErrors` is empty on every request reaching the controller.) -/
theorem uploadFiles_unverified_rejected (st : ServerState) (req : UploadRequest)
    (hval : req.validationErrors = []) (hver : req.userIsEmailVerified = false) :
    (uploadFiles req st).2.status = 400 ∧
    (uploadFiles req st).2.success = false ∧
    (uploadFiles req st).1.documents = st.documents ∧
    ∀ f ∈ req.files, f.path ∉ (uploadFiles req st).1.tempFiles := by
  by_cases hne : req.files = []
  · rw [uploadFiles, if_neg (by rw [hval]; simp), if_pos hne]
    exact ⟨rfl, rfl, rfl, by rw [hne]; intro f h; cases h⟩
  · rw [uploadFiles, if_neg (by rw [hval]; simp), if_neg hne, if_pos hver]
    exact ⟨rfl, rfl, rfl, fun f hf => foldl_unlink_not_mem f req.files st.tempFiles hf⟩

/-- C2 witness. -/
theorem uploadFiles_unverified_rejected_witness :
    let f0 : ReqFile :=
      { path := "/tmp/u1", filename := "s1", originalname := "a.pdf",
        size := 10, documentHash := "h1", readErr := none, createErr := none,
        bodyDocumentTypeId := none, bodyTier := none, bodyOriginalId := none, bodyName := none }
    let req : UploadRequest :=
      { validationErrors := [], files := [f0],
        userIsEmailVerified := false, userId := "u", ip := "ip", userAgent := "ua",
        customerInfo := none, pricingSnapshot := none, metadataRaw := none }
    let st : ServerState := { documents := [], tempFiles := ["/tmp/u1"], udinCtr := 0 }
    (uploadFiles req st).2.status = 400 ∧
    (uploadFiles req st).2.success = false ∧
    (uploadFiles req st).1.documents = st.documents ∧
    ∀ f ∈ req.files, f.path ∉ (uploadFiles req st).1.tempFiles := by
  exact uploadFiles_unverified_rejected _ _ rfl rfl

/-- C9: on every validated, non-empty batch from a verified user each
received file contributes exactly one outcome, so the response satisfies
totalUploaded + number of per-file errors = totalRequested. -/
theorem uploadFiles_outcome_partition (st : ServerState) (req : UploadRequest)
    (hval : req.validationErrors = []) (hver : req.userIsEmailVerified = true)
    (hne : req.files ≠ []) :
    ∃ dta, (uploadFiles req st).2.data = some dta ∧
      dta.totalUploaded + (dta.errors.getD []).length = dta.totalRequested := by
  rw [uploadFiles_main st req hval hver hne]
  refine ⟨_, rfl, ?_⟩
  have hp := foldl_processFile_partition (ctxOf req) req.files
    ⟨st.documents, st.tempFiles, [], [], st.udinCtr⟩
  simp only [List.length_nil] at hp
  simp only [runBatch]
  by_cases he : (List.foldl (processFile (ctxOf req))
      ⟨st.documents, st.tempFiles, [], [], st.udinCtr⟩ req.files).errs = []
  · simp only [if_pos he, Option.getD_none]
    rw [he] at hp
    simpa using hp
  · simp only [if_neg he, Option.getD_some]
    omega

/-- C9 witness. -/
theorem uploadFiles_outcome_partition_witness :
    let f0 : ReqFile :=
      { path := "/tmp/u1", filename := "s1", originalname := "a.pdf",
        size := 10, documentHash := "h1", readErr := none, createErr := none,
        bodyDocumentTypeId := none, bodyTier := none, bodyOriginalId := none, bodyName := none }
    let f1 : ReqFile :=
      { path := "/tmp/u2", filename := "s2", originalname := "b.pdf",
        size := 11, documentHash := "h1", readErr := none, createErr := none,
        bodyDocumentTypeId := none, bodyTier := none, bodyOriginalId := none, bodyName := none }
    let req : UploadRequest :=
      { validationErrors := [], files := [f0, f1],
        userIsEmailVerified := true, userId := "u", ip := "ip", userAgent := "ua",
        customerInfo := none, pricingSnapshot := none, metadataRaw := none }
    let st : ServerState := { documents := [], tempFiles := ["/tmp/u1", "/tmp/u2"], udinCtr := 0 }
    ∃ dta, (uploadFiles req st).2.data = some dta ∧
      dta.totalUploaded + (dta.errors.getD []).length = dta.totalRequested := by
  exact uploadFiles_outcome_partition _ _ rfl rfl (by simp)

/-- C1: in a validated batch from a verified user, a file whose content
hash equals the hash of an already-stored Document is discarded: its temp
file is deleted, the per-file "already been uploaded" error is reported,
and the remaining files of the batch are processed exactly as if the
duplicate had not been sent (same stored documents, same accepted files);
the response is 201 with success exactly when at least one file was
accepted, and 400 with success=false otherwise. -/
theorem uploadFiles_duplicate_hash_isolated (st : ServerState) (req : UploadRequest)
    (pre post : List ReqFile) (dup : ReqFile)
    (hval : req.validationErrors = [])
    (hver : req.userIsEmailVerified = true)
    (hfiles : req.files = pre ++ dup :: post)
    (hread : dup.readErr = none)
    (hdup : ∃ d0 ∈ st.documents, d0.documentHash = dup.documentHash) :
    ∃ dta, (uploadFiles req st).2.data = some dta ∧
      (∃ es, dta.errors = some es ∧ dupErrMsg dup ∈ es) ∧
      dup.path ∉ (uploadFiles req st).1.tempFiles ∧
      (uploadFiles req st).1.documents = (runBatch (ctxOf req) st (pre ++ post)).docs ∧
      dta.uploadedFiles = (runBatch (ctxOf req) st (pre ++ post)).uploaded ∧
      (((uploadFiles req st).2.status = 201 ∧ (uploadFiles req st).2.success = true) ↔
        dta.uploadedFiles ≠ []) ∧
      (((uploadFiles req st).2.status = 400 ∧ (uploadFiles req st).2.success = false) ↔
        dta.uploadedFiles = []) := by
  have hne : req.files ≠ [] := by rw [hfiles]; simp
  rw [uploadFiles_main st req hval hver hne]
  have hrun : runBatch (ctxOf req) st req.files =
      List.foldl (processFile (ctxOf req))
        (processFile (ctxOf req)
          (List.foldl (processFile (ctxOf req))
            ⟨st.documents, st.tempFiles, [], [], st.udinCtr⟩ pre) dup) post := by
    rw [runBatch, hfiles, List.foldl_append, List.foldl_cons]
  have hrun2 : runBatch (ctxOf req) st (pre ++ post) =
      List.foldl (processFile (ctxOf req))
        (List.foldl (processFile (ctxOf req))
          ⟨st.documents, st.tempFiles, [], [], st.udinCtr⟩ pre) post := by
    rw [runBatch, List.foldl_append]
  set mid := List.foldl (processFile (ctxOf req))
    ⟨st.documents, st.tempFiles, [], [], st.udinCtr⟩ pre with hmid
  have hfound : ∃ d1, mid.docs.find? (fun d0 => decide (d0.documentHash = dup.documentHash)) = some d1 := by
    rw [← Option.isSome_iff_exists, List.find?_isSome]
    obtain ⟨d0, hd0, hh⟩ := hdup
    obtain ⟨tl, htl⟩ := foldl_processFile_docs_mono (ctxOf req) pre
      ⟨st.documents, st.tempFiles, [], [], st.udinCtr⟩
    refine ⟨d0, ?_, by simp [hh]⟩
    rw [← hmid] at htl
    rw [htl]
    exact List.mem_append_left _ hd0
  obtain ⟨d1, hd1⟩ := hfound
  have hstep : processFile (ctxOf req) mid dup =
      ⟨mid.docs, unlinkTemp dup.path mid.temp, mid.uploaded, mid.errs ++ [dupErrMsg dup], mid.ctr⟩ := by
    simp [processFile, hread, hd1]
  have hframe := foldl_processFile_frame (ctxOf req) post mid.docs mid.ctr
    (unlinkTemp dup.path mid.temp) mid.temp mid.uploaded mid.uploaded
    (mid.errs ++ [dupErrMsg dup]) mid.errs
  obtain ⟨hdocs, hctr, ⟨du, hu1, hu2⟩, ⟨de, he1, he2⟩⟩ := hframe
  have hmide : (⟨mid.docs, mid.temp, mid.uploaded, mid.errs, mid.ctr⟩ : ProcState) = mid := rfl
  rw [hmide] at hdocs hctr hu2 he2
  rw [← hstep] at hdocs hctr hu1 he1
  -- the full run and the run without the duplicate
  rw [hrun2]
  rw [hrun]
  set fin := List.foldl (processFile (ctxOf req)) (processFile (ctxOf req) mid dup) post with hfin
  set r2 := List.foldl (processFile (ctxOf req)) mid post with hr2
  have hmem : dupErrMsg dup ∈ fin.errs := by
    rw [he1]
    exact List.mem_append_left _ (List.mem_append_right _ (List.mem_singleton.mpr rfl))
  have herrne : fin.errs ≠ [] := List.ne_nil_of_mem hmem
  refine ⟨_, rfl, ⟨fin.errs, by simp [if_neg herrne], hmem⟩, ?_, hdocs, ?_, ?_, ?_⟩
  · have h0 : dup.path ∉ (processFile (ctxOf req) mid dup).temp := by
      rw [hstep]
      exact not_mem_unlinkTemp _ _
    exact foldl_processFile_temp_mono (ctxOf req) post _ _ h0
  · rw [hu1, hu2]
  · by_cases hupl : fin.uploaded = []
    · rw [hupl]
      simp
    · have hpos : 0 < fin.uploaded.length := List.length_pos.mpr hupl
      simp [if_pos hpos, hpos, hupl]
  · by_cases hupl : fin.uploaded = []
    · rw [hupl]
      simp
    · have hpos : 0 < fin.uploaded.length := List.length_pos.mpr hupl
      simp [if_pos hpos, hpos, hupl]

/-- C1 witness: a two-file batch whose first file repeats a stored hash
and whose second file is new. -/
theorem uploadFiles_duplicate_hash_isolated_witness :
    let doc0 : Document :=
      { userId := "u0", udin := "UDIN-9", fileName := "old", originalName := "old.pdf",
        fileType := "pdf", fileSize := 5, filePath := "/data/old", documentHash := "h1",
        documentTypeId := "", tier := "Standard", uploadIP := "ip0", userAgent := "ua0",
        checksum := "h1", originalId := "", customerInfo := none, pricingSnapshot := none,
        uploadMetadata := none }
    let f0 : ReqFile :=
      { path := "/tmp/a", filename := "s1", originalname := "a.pdf",
        size := 10, documentHash := "h1", readErr := none, createErr := none,
        bodyDocumentTypeId := none, bodyTier := none, bodyOriginalId := none, bodyName := none }
    let f1 : ReqFile :=
      { path := "/tmp/b", filename := "s2", originalname := "b.pdf",
        size := 11, documentHash := "h2", readErr := none, createErr := none,
        bodyDocumentTypeId := none, bodyTier := none, bodyOriginalId := none, bodyName := none }
    let req : UploadRequest :=
      { validationErrors := [], files := [f0, f1],
        userIsEmailVerified := true, userId := "u", ip := "ip", userAgent := "ua",
        customerInfo := none, pricingSnapshot := none, metadataRaw := none }
    let st : ServerState := { documents := [doc0], tempFiles := ["/tmp/a", "/tmp/b"], udinCtr := 0 }
    ∃ dta, (uploadFiles req st).2.data = some dta ∧
      (∃ es, dta.errors = some es ∧ dupErrMsg f0 ∈ es) ∧
      f0.path ∉ (uploadFiles req st).1.tempFiles ∧
      (uploadFiles req st).1.documents = (runBatch (ctxOf req) st ([] ++ [f1])).docs ∧
      dta.uploadedFiles = (runBatch (ctxOf req) st ([] ++ [f1])).uploaded ∧
      (((uploadFiles req st).2.status = 201 ∧ (uploadFiles req st).2.success = true) ↔
        dta.uploadedFiles ≠ []) ∧
      (((uploadFiles req st).2.status = 400 ∧ (uploadFiles req st).2.success = false) ↔
        dta.uploadedFiles = []) := by
  intro doc0 f0 f1 req st
  exact uploadFiles_duplicate_hash_isolated st req [] [f1] f0 rfl rfl rfl rfl
    ⟨doc0, by simp, rfl⟩

/-- The generated OTP is a 6-digit number: `Math.floor(100000 +
Math.random() * 900000)` lies in [100000, 999999] for every draw. -/
theorem genOtp_range (r : ℚ) (h0 : 0 ≤ r) (h1 : r < 1) :
    100000 ≤ genOtp r ∧ genOtp r ≤ 999999 := by
  have hlo : (100000 : ℤ) ≤ Int.floor ((100000 : ℚ) + r * 900000) := by
    apply Int.le_floor.mpr
    push_cast
    nlinarith
  have hhi : Int.floor ((100000 : ℚ) + r * 900000) < 1000000 := by
    apply Int.floor_lt.mpr
    push_cast
    nlinarith
  unfold genOtp
  omega

/-- Updating the first match of `p` keeps it the first match when the
update preserves `p`. -/
theorem updateFirst_find? (p : α → Bool) (f : α → α) :
    ∀ (l : List α) (u : α), l.find? p = some u → p (f u) = true →
      (updateFirst p f l).find? p = some (f u) := by
  intro l
  induction l with
  | nil => intro u h _; cases h
  | cons x xs ih =>
    intro u h hp
    by_cases hx : p x = true
    · rw [List.find?_cons_of_pos _ hx] at h
      injection h with h
      subst h
      show (if p x = true then f x :: xs else x :: updateFirst p f xs).find? p = some (f x)
      rw [if_pos hx, List.find?_cons_of_pos _ hp]
    · have hx' : p x = false := by simp at hx; exact hx
      rw [List.find?_cons_of_neg _ (by simp [hx'])] at h
      show (if p x = true then f x :: xs else x :: updateFirst p f xs).find? p = some (f u)
      rw [if_neg (by simp [hx']), List.find?_cons_of_neg _ (by simp [hx'])]
      exact ih u h hp

/-- `deleteOne` semantics: erasing the first match removes exactly one
match from the count. -/
theorem countP_eraseP (p : α → Bool) :
    ∀ (l : List α), (∃ x ∈ l, p x = true) →
      (l.eraseP p).countP p + 1 = l.countP p := by
  intro l
  induction l with
  | nil => rintro ⟨x, hx, _⟩; cases hx
  | cons y ys ih =>
    rintro ⟨x, hx, hpx⟩
    by_cases hy : p y = true
    · simp [List.eraseP_cons_of_pos hy, List.countP_cons, hy]
    · have hne : x ∈ ys := by
        rcases List.mem_cons.mp hx with rfl | hmem
        · exact absurd hpx hy
        · exact hmem
      have hih := ih ⟨x, hne, hpx⟩
      simpa [List.eraseP_cons_of_neg hy, List.countP_cons, hy] using hih

/-- The record `findOne` returns for a verification id stays the first
match at any later instant before its expiry. -/
theorem verification_find?_mono (vid : String) (now now' : Nat) (hle : now ≤ now') :
    ∀ (l : List EmailVerificationRec) (v : EmailVerificationRec),
      l.find? (fun w => decide (w.verificationId = vid ∧ now < w.expiresAt)) = some v →
      now' < v.expiresAt →
      l.find? (fun w => decide (w.verificationId = vid ∧ now' < w.expiresAt)) = some v := by
  intro l
  induction l with
  | nil => intro v h _; cases h
  | cons w ws ih =>
    intro v h hv
    by_cases hw : w.verificationId = vid ∧ now < w.expiresAt
    · rw [List.find?_cons_of_pos _ (by simp [hw.1, hw.2])] at h
      injection h with h
      subst h
      rw [List.find?_cons_of_pos _ (by simp [hw.1, hv])]
    · rw [List.find?_cons_of_neg _ (by simpa using hw)] at h
      have hw' : ¬ (w.verificationId = vid ∧ now' < w.expiresAt) := by
        rintro ⟨h1, h2⟩
        exact hw ⟨h1, lt_of_le_of_lt hle h2⟩
      rw [List.find?_cons_of_neg _ (by simpa using hw')]
      exact ih v h hv

/-- C3: `verifyOtp` fails with "Invalid or expired OTP" whenever no record
with the identifier and a strictly-future expiry exists (leaving the whole
state, in particular the user, unmutated); fails with "Invalid OTP" when
the looked-up record's stored code differs; and on success marks the
record's user email-verified, deletes the record, and returns a session
token. -/
theorem verifyOtp_spec (st : AuthState) (vid otp : String) (now : Nat) :
    ((∀ v ∈ st.verifications, ¬ (v.verificationId = vid ∧ now < v.expiresAt)) →
      verifyOtp vid otp now st = (st, .error "Invalid or expired OTP")) ∧
    (∀ v, st.verifications.find?
        (fun w => decide (w.verificationId = vid ∧ now < w.expiresAt)) = some v →
      (v.otp ≠ otp → verifyOtp vid otp now st = (st, .error "Invalid OTP")) ∧
      (v.otp = otp → ∀ u, st.users.find? (fun w => decide (w.email = v.email)) = some u →
        (verifyOtp vid otp now st).2 =
          .ok { message := "Email verified successfully", token := generateToken u.userId } ∧
        (∃ u', (verifyOtp vid otp now st).1.users.find?
            (fun w => decide (w.email = v.email)) = some u' ∧
          u' = { u with isEmailVerified := true, lastLogin := some now }) ∧
        (verifyOtp vid otp now st).1.verifications =
          st.verifications.eraseP (fun w => decide (w.verificationId = vid)))) := by
  constructor
  · intro hnone
    have hfind : st.verifications.find?
        (fun w => decide (w.verificationId = vid) && decide (now < w.expiresAt)) = none := by
      rw [List.find?_eq_none]
      intro x hx
      simpa using hnone x hx
    simp [verifyOtp, hfind]
  · intro v hv
    have hv' : st.verifications.find?
        (fun w => decide (w.verificationId = vid) && decide (now < w.expiresAt)) = some v := by
      simpa using hv
    constructor
    · intro hne
      simp [verifyOtp, hv', hne]
    · intro heq u hu
      have hpu : u.email = v.email := by
        have := List.find?_some hu
        simpa using this
      have key : verifyOtp vid otp now st =
          ({ users := updateFirst (fun w => decide (w.email = v.email))
               (fun w => { w with isEmailVerified := true, lastLogin := some now }) st.users,
             verifications :=
               st.verifications.eraseP (fun w => decide (w.verificationId = vid)) },
           .ok { message := "Email verified successfully", token := generateToken u.userId }) := by
        simp [verifyOtp, hv', heq, hu]
      have hfu := updateFirst_find? (fun w => decide (w.email = v.email))
        (fun w => { w with isEmailVerified := true, lastLogin := some now })
        st.users u hu (by simpa using hpu)
      refine ⟨by rw [key], ⟨{ u with isEmailVerified := true, lastLogin := some now }, ?_, rfl⟩,
        by rw [key]⟩
      rw [key]
      exact hfu

/-- C3 witness: the three branches at concrete states. -/
theorem verifyOtp_spec_witness :
    let stA : AuthState := { users := [], verifications := [] }
    let rec0 : EmailVerificationRec :=
      { email := "a@b.c", otp := "111111", verificationId := "v1", expiresAt := 100 }
    let u0 : UserRec :=
      { userId := "u1", name := "A", email := "a@b.c", mobile := "1", password := "p",
        address := "x", isEmailVerified := false, lastLogin := none,
        emailVerificationToken := none, emailVerificationExpires := none }
    let stB : AuthState := { users := [u0], verifications := [rec0] }
    verifyOtp "v1" "111111" 0 stA = (stA, .error "Invalid or expired OTP") ∧
    verifyOtp "v1" "222222" 0 stB = (stB, .error "Invalid OTP") ∧
    (verifyOtp "v1" "111111" 0 stB).2 =
      .ok { message := "Email verified successfully", token := generateToken "u1" } ∧
    (verifyOtp "v1" "111111" 0 stB).1.verifications = [] := by
  intro stA rec0 u0 stB
  have hA := (verifyOtp_spec stA "v1" "111111" 0).1 (by intro v hv; cases hv)
  have hB := (verifyOtp_spec stB "v1" "222222" 0).2 rec0 (by rfl)
  have hC := ((verifyOtp_spec stB "v1" "111111" 0).2 rec0 (by rfl)).2 rfl u0 (by rfl)
  exact ⟨hA, hB.1 (by decide), hC.1, by rw [hC.2.2]; rfl⟩

/-- Whenever `verifyOtp` succeeds, a matching unexpired record had been
found and the record with that identifier is deleted from the
collection. -/
theorem verifyOtp_ok_shape (vid otp : String) (now : Nat) (st st' : AuthState)
    (res : VerifyResult) (h : verifyOtp vid otp now st = (st', .ok res)) :
    ∃ v, st.verifications.find?
        (fun w => decide (w.verificationId = vid ∧ now < w.expiresAt)) = some v ∧
      st'.verifications = st.verifications.eraseP (fun w => decide (w.verificationId = vid)) := by
  unfold verifyOtp at h
  rcases hf : st.verifications.find?
      (fun w => decide (w.verificationId = vid ∧ now < w.expiresAt)) with _ | v
  · simp only [hf] at h
    simp [Prod.mk.injEq] at h
  · simp only [hf] at h
    by_cases hne : v.otp = otp
    · rw [if_neg (by simp [hne])] at h
      rcases hu : st.users.find? (fun u => decide (u.email = v.email)) with _ | u
      · simp only [hu] at h
        simp [Prod.mk.injEq] at h
      · simp only [hu] at h
        injection h with h1 h2
        refine ⟨v, hf, ?_⟩
        rw [← h1]
    · rw [if_pos hne] at h
      simp [Prod.mk.injEq] at h

/-- C4: `sendOtp` fails when a user with the email exists; otherwise it
appends exactly one fresh EmailVerification record carrying a 6-digit
numeric code and an expiry of now + 15 minutes — the only record with the
fresh identifier — and any later successful `verifyOtp` removes one record
with the verified identifier from the collection. -/
theorem sendOtp_spec (st : AuthState) (email vid : String) (r : ℚ) (now : Nat) :
    ((∃ u ∈ st.users, u.email = email) →
      sendOtp email vid r now st = (st, .error "User already exists with this email")) ∧
    ((∀ u ∈ st.users, u.email ≠ email) →
      (sendOtp email vid r now st).1.verifications =
        st.verifications ++
          [{ email := email, otp := genOtpStr r, verificationId := vid,
             expiresAt := now + 15 * 60 * 1000 }] ∧
      (sendOtp email vid r now st).2 = .ok { verificationId := vid, email := email } ∧
      (0 ≤ r → r < 1 → ∃ n : ℕ, 100000 ≤ n ∧ n ≤ 999999 ∧ genOtpStr r = toString n) ∧
      ((∀ w ∈ st.verifications, w.verificationId ≠ vid) →
        (sendOtp email vid r now st).1.verifications.countP
          (fun w => decide (w.verificationId = vid)) = 1)) ∧
    (∀ (st₂ st₂' : AuthState) (vid₂ otp₂ : String) (now₂ : Nat) (res : VerifyResult),
      verifyOtp vid₂ otp₂ now₂ st₂ = (st₂', .ok res) →
      st₂'.verifications.countP (fun w => decide (w.verificationId = vid₂)) + 1 =
        st₂.verifications.countP (fun w => decide (w.verificationId = vid₂))) := by
  refine ⟨?_, ?_, ?_⟩
  · rintro ⟨u, hu, he⟩
    have hfind : (st.users.find? (fun w => decide (w.email = email))).isSome :=
      List.find?_isSome.mpr ⟨u, hu, by simp [he]⟩
    rcases hx : st.users.find? (fun w => decide (w.email = email)) with _ | u0
    · rw [hx] at hfind; cases hfind
    · simp [sendOtp, hx]
  · intro hnone
    have hfind : st.users.find? (fun w => decide (w.email = email)) = none := by
      rw [List.find?_eq_none]
      intro x hx
      simpa using hnone x hx
    refine ⟨by simp [sendOtp, hfind], by simp [sendOtp, hfind], ?_, ?_⟩
    · intro h0 h1
      obtain ⟨hlo, hhi⟩ := genOtp_range r h0 h1
      exact ⟨genOtp r, hlo, hhi, rfl⟩
    · intro hfresh
      have hv : (sendOtp email vid r now st).1.verifications =
          st.verifications ++
            [{ email := email, otp := genOtpStr r, verificationId := vid,
               expiresAt := now + 15 * 60 * 1000 }] := by
        simp [sendOtp, hfind]
      rw [hv, List.countP_append]
      have h0 : st.verifications.countP (fun w => decide (w.verificationId = vid)) = 0 := by
        rw [List.countP_eq_zero]
        intro w hw
        simpa using hfresh w hw
      rw [h0]
      simp
  · intro st₂ st₂' vid₂ otp₂ now₂ res h
    obtain ⟨v, hf, hdel⟩ := verifyOtp_ok_shape vid₂ otp₂ now₂ st₂ st₂' res h
    rw [hdel]
    apply countP_eraseP
    have hpv := List.find?_some hf
    have hmem := List.mem_of_find?_eq_some hf
    refine ⟨v, hmem, ?_⟩
    simp only [decide_eq_true_eq] at hpv
    simp [hpv.1]

/-- C4 witness: the three parts at concrete states. -/
theorem sendOtp_spec_witness :
    let st0 : AuthState := { users := [], verifications := [] }
    let u1 : UserRec :=
      { userId := "u1", name := "A", email := "a@b.c", mobile := "1", password := "p",
        address := "x", isEmailVerified := false, lastLogin := none,
        emailVerificationToken := none, emailVerificationExpires := none }
    let st1 : AuthState := { users := [u1], verifications := [] }
    let uc : UserRec :=
      { userId := "u9", name := "C", email := "c@d.e", mobile := "2", password := "p",
        address := "x", isEmailVerified := false, lastLogin := none,
        emailVerificationToken := none, emailVerificationExpires := none }
    let recC : EmailVerificationRec :=
      { email := "c@d.e", otp := "123456", verificationId := "v9", expiresAt := 100 }
    let stC : AuthState := { users := [uc], verifications := [recC] }
    let stC' : AuthState :=
      { users := [{ uc with isEmailVerified := true, lastLogin := some 0 }],
        verifications := [] }
    sendOtp "a@b.c" "v1" (1/2) 0 st1 = (st1, .error "User already exists with this email") ∧
    (sendOtp "a@b.c" "v1" (1/2) 0 st0).1.verifications =
      [{ email := "a@b.c", otp := genOtpStr (1/2), verificationId := "v1",
         expiresAt := 900000 }] ∧
    (∃ n : ℕ, 100000 ≤ n ∧ n ≤ 999999 ∧ genOtpStr (1/2) = toString n) ∧
    (sendOtp "a@b.c" "v1" (1/2) 0 st0).1.verifications.countP
      (fun w => decide (w.verificationId = "v1")) = 1 ∧
    stC'.verifications.countP (fun w => decide (w.verificationId = "v9")) + 1 =
      stC.verifications.countP (fun w => decide (w.verificationId = "v9")) := by
  intro st0 u1 st1 uc recC stC stC'
  have hA := (sendOtp_spec st1 "a@b.c" "v1" (1/2) 0).1 ⟨u1, by simp, rfl⟩
  have hB := (sendOtp_spec st0 "a@b.c" "v1" (1/2) 0).2.1 (by intro u hu; cases hu)
  exact ⟨hA, hB.1, hB.2.2.1 (by norm_num) (by norm_num),
    hB.2.2.2 (by intro w hw; cases hw),
    (sendOtp_spec st0 "a@b.c" "v1" (1/2) 0).2.2 stC stC' "v9" "123456" 0
      { message := "Email verified successfully", token := generateToken "u9" } rfl⟩

/-- `verifyOtp` when no unexpired record with the identifier exists. -/
theorem verifyOtp_find_none (vid otp : String) (now : Nat) (st : AuthState)
    (hf : st.verifications.find?
      (fun w => decide (w.verificationId = vid ∧ now < w.expiresAt)) = none) :
    verifyOtp vid otp now st = (st, .error "Invalid or expired OTP") := by
  unfold verifyOtp
  simp only [hf]

/-- `verifyOtp` when the looked-up record's code mismatches. -/
theorem verifyOtp_mismatch_eq (vid otp : String) (now : Nat) (st : AuthState)
    (v : EmailVerificationRec)
    (hf : st.verifications.find?
      (fun w => decide (w.verificationId = vid ∧ now < w.expiresAt)) = some v)
    (hne : v.otp ≠ otp) :
    verifyOtp vid otp now st = (st, .error "Invalid OTP") := by
  unfold verifyOtp
  simp only [hf]
  rw [if_pos hne]

/-- `verifyOtp` on a matching record, matching code and existing user. -/
theorem verifyOtp_success_eq (vid otp : String) (now : Nat) (st : AuthState)
    (v : EmailVerificationRec) (u : UserRec)
    (hf : st.verifications.find?
      (fun w => decide (w.verificationId = vid ∧ now < w.expiresAt)) = some v)
    (hotp : v.otp = otp)
    (hu : st.users.find? (fun w => decide (w.email = v.email)) = some u) :
    verifyOtp vid otp now st =
      ({ users := updateFirst (fun w => decide (w.email = v.email))
           (fun w => { w with isEmailVerified := true, lastLogin := some now }) st.users,
         verifications :=
           st.verifications.eraseP (fun w => decide (w.verificationId = vid)) },
       .ok { message := "Email verified successfully", token := generateToken u.userId }) := by
  unfold verifyOtp
  simp only [hf]
  rw [if_neg (by simp [hotp])]
  simp only [hu]

/-- C5: `resendOtp` fails when no account owns the email or the account is
already verified; otherwise it purges every verification record for the
email and issues one fresh pair, after which (for a fresh identifier) the
newest code verifies before expiry while any other code and every
previously issued identifier for that email are rejected. -/
theorem resendOtp_spec (st : AuthState) (email vid : String) (r : ℚ) (now : Nat) :
    ((∀ u ∈ st.users, u.email ≠ email) →
      resendOtp email vid r now st = (st, .error "No account found with this email address")) ∧
    (∀ u, st.users.find? (fun w => decide (w.email = email)) = some u →
      (u.isEmailVerified = true →
        resendOtp email vid r now st = (st, .error "Email is already verified")) ∧
      (u.isEmailVerified = false →
        (resendOtp email vid r now st).1.verifications =
          st.verifications.filter (fun w => decide (w.email ≠ email)) ++
            [{ email := email, otp := genOtpStr r, verificationId := vid,
               expiresAt := now + 15 * 60 * 1000 }] ∧
        (∀ w ∈ (resendOtp email vid r now st).1.verifications, w.email = email →
          w.verificationId = vid ∧ w.otp = genOtpStr r) ∧
        ((∀ w ∈ st.verifications, w.verificationId ≠ vid) →
          (∀ now', now' < now + 15 * 60 * 1000 →
            ∃ res, (verifyOtp vid (genOtpStr r) now' (resendOtp email vid r now st).1).2 =
              .ok res) ∧
          (∀ wrongOtp, wrongOtp ≠ genOtpStr r → ∀ now'' : Nat,
            ∃ msg, (verifyOtp vid wrongOtp now'' (resendOtp email vid r now st).1).2 =
              .error msg)) ∧
        (∀ oldVid, oldVid ≠ vid →
          (∀ w ∈ st.verifications, w.verificationId = oldVid → w.email = email) →
          ∀ (anyOtp : String) (now₃ : Nat),
            verifyOtp oldVid anyOtp now₃ (resendOtp email vid r now st).1 =
              ((resendOtp email vid r now st).1, .error "Invalid or expired OTP")))) := by
  constructor
  · intro hnone
    have hfind : st.users.find? (fun w => decide (w.email = email)) = none := by
      rw [List.find?_eq_none]
      intro x hx
      simpa using hnone x hx
    simp [resendOtp, hfind]
  · intro u hu
    constructor
    · intro hver
      simp [resendOtp, hu, hver]
    · intro hunver
      have key : resendOtp email vid r now st =
          ({ users := st.users,
             verifications := st.verifications.filter (fun w => decide (w.email ≠ email)) ++
               [{ email := email, otp := genOtpStr r, verificationId := vid,
                  expiresAt := now + 15 * 60 * 1000 }] },
           .ok { verificationId := vid, email := email }) := by
        simp [resendOtp, hu, hunver]
      refine ⟨by rw [key], ?_, ?_, ?_⟩
      · rw [key]
        intro w hw hwe
        rcases List.mem_append.mp hw with hmem | hmem
        · have hxf := List.mem_filter.mp hmem
          simp [hwe] at hxf
        · obtain rfl := List.mem_singleton.mp hmem
          exact ⟨rfl, rfl⟩
      · intro hfresh
        have hfilter_none : ∀ (vid₄ : String) (now₄ : Nat),
            (∀ w ∈ st.verifications, w.verificationId ≠ vid₄) →
            (st.verifications.filter (fun w => decide (w.email ≠ email))).find?
              (fun w => decide (w.verificationId = vid₄ ∧ now₄ < w.expiresAt)) = none := by
          intro vid₄ now₄ hfr
          rw [List.find?_eq_none]
          intro x hx
          have hxs := List.mem_of_mem_filter hx
          have hxv := hfr x hxs
          simp [hxv]
        constructor
        · intro now' hlt
          have hf2 : (st.verifications.filter (fun w => decide (w.email ≠ email)) ++
              [({ email := email, otp := genOtpStr r, verificationId := vid,
                  expiresAt := now + 15 * 60 * 1000 } : EmailVerificationRec)]).find?
              (fun w => decide (w.verificationId = vid ∧ now' < w.expiresAt)) =
              some ({ email := email, otp := genOtpStr r, verificationId := vid,
                      expiresAt := now + 15 * 60 * 1000 } : EmailVerificationRec) := by
            rw [List.find?_append, hfilter_none vid now' hfresh, Option.none_or,
              List.find?_cons_of_pos _ (by simp [hlt])]
          rw [key]
          exact ⟨{ message := "Email verified successfully", token := generateToken u.userId },
            by rw [verifyOtp_success_eq vid (genOtpStr r) now' _ _ u hf2 rfl hu]⟩
        · intro wrongOtp hne now''
          rw [key]
          by_cases hlt : now'' < now + 15 * 60 * 1000
          · have hf2 : (st.verifications.filter (fun w => decide (w.email ≠ email)) ++
                [({ email := email, otp := genOtpStr r, verificationId := vid,
                    expiresAt := now + 15 * 60 * 1000 } : EmailVerificationRec)]).find?
                (fun w => decide (w.verificationId = vid ∧ now'' < w.expiresAt)) =
                some ({ email := email, otp := genOtpStr r, verificationId := vid,
                        expiresAt := now + 15 * 60 * 1000 } : EmailVerificationRec) := by
              rw [List.find?_append, hfilter_none vid now'' hfresh, Option.none_or,
                List.find?_cons_of_pos _ (by simp [hlt])]
            exact ⟨"Invalid OTP",
              by rw [verifyOtp_mismatch_eq vid wrongOtp now'' _ _ hf2 (Ne.symm hne)]⟩
          · have hf2 : (st.verifications.filter (fun w => decide (w.email ≠ email)) ++
                [({ email := email, otp := genOtpStr r, verificationId := vid,
                    expiresAt := now + 15 * 60 * 1000 } : EmailVerificationRec)]).find?
                (fun w => decide (w.verificationId = vid ∧ now'' < w.expiresAt)) = none := by
              rw [List.find?_append, hfilter_none vid now'' hfresh, Option.none_or,
                List.find?_cons_of_neg _ (by simp [hlt])]
              rfl
            exact ⟨"Invalid or expired OTP",
              by rw [verifyOtp_find_none vid wrongOtp now'' _ hf2]⟩
      · intro oldVid hne hold anyOtp now₃
        rw [key]
        have hf3 : (st.verifications.filter (fun w => decide (w.email ≠ email)) ++
            [({ email := email, otp := genOtpStr r, verificationId := vid,
                expiresAt := now + 15 * 60 * 1000 } : EmailVerificationRec)]).find?
            (fun w => decide (w.verificationId = oldVid ∧ now₃ < w.expiresAt)) = none := by
          rw [List.find?_eq_none]
          intro x hx
          rcases List.mem_append.mp hx with hmem | hmem
          · have hxf := List.mem_filter.mp hmem
            by_cases hxe : x.verificationId = oldVid
            · have hxemail := hold x (List.mem_of_mem_filter hmem) hxe
              simp [hxemail] at hxf
            · simp [hxe]
          · obtain rfl := List.mem_singleton.mp hmem
            simp [Ne.symm hne]
        exact verifyOtp_find_none oldVid anyOtp now₃ _ hf3

/-- C5 witness: the failure branches, the purge, the fresh code verifying
and an old identifier being rejected, at concrete states. -/
theorem resendOtp_spec_witness :
    let uR : UserRec :=
      { userId := "u1", name := "A", email := "a@b.c", mobile := "1", password := "p",
        address := "x", isEmailVerified := false, lastLogin := none,
        emailVerificationToken := none, emailVerificationExpires := none }
    let uV : UserRec :=
      { userId := "u2", name := "B", email := "b@c.d", mobile := "2", password := "p",
        address := "x", isEmailVerified := true, lastLogin := none,
        emailVerificationToken := none, emailVerificationExpires := none }
    let oldRec : EmailVerificationRec :=
      { email := "a@b.c", otp := "111111", verificationId := "oldv", expiresAt := 900000 }
    let st : AuthState := { users := [uR], verifications := [oldRec] }
    let stE : AuthState := { users := [], verifications := [] }
    let stV : AuthState := { users := [uV], verifications := [] }
    resendOtp "a@b.c" "v2" (1/2) 0 stE =
      (stE, .error "No account found with this email address") ∧
    resendOtp "b@c.d" "v2" (1/2) 0 stV = (stV, .error "Email is already verified") ∧
    (resendOtp "a@b.c" "v2" (1/2) 0 st).1.verifications =
      [{ email := "a@b.c", otp := genOtpStr (1/2), verificationId := "v2",
         expiresAt := 900000 }] ∧
    (∃ res, (verifyOtp "v2" (genOtpStr (1/2)) 10 (resendOtp "a@b.c" "v2" (1/2) 0 st).1).2 =
      .ok res) ∧
    (∃ msg, (verifyOtp "v2" "000000" 10 (resendOtp "a@b.c" "v2" (1/2) 0 st).1).2 =
      .error msg) ∧
    verifyOtp "oldv" "111111" 5 (resendOtp "a@b.c" "v2" (1/2) 0 st).1 =
      ((resendOtp "a@b.c" "v2" (1/2) 0 st).1, .error "Invalid or expired OTP") := by
  intro uR uV oldRec st stE stV
  have hb := ((resendOtp_spec st "a@b.c" "v2" (1/2) 0).2 uR rfl).2 rfl
  have hfresh : ∀ w ∈ st.verifications, w.verificationId ≠ "v2" := by
    intro w hw
    obtain rfl := List.mem_singleton.mp hw
    decide
  refine ⟨?_, ?_, hb.1, ?_, ?_, ?_⟩
  · exact (resendOtp_spec stE "a@b.c" "v2" (1/2) 0).1 (by intro x hx; cases hx)
  · exact ((resendOtp_spec stV "b@c.d" "v2" (1/2) 0).2 uV rfl).1 rfl
  · exact (hb.2.2.1 hfresh).1 10 (by norm_num)
  · have hgen : ("000000" : String) ≠ genOtpStr (1/2) := by
      have hv : genOtp (1/2) = 550000 := by
        have hfl : Int.floor ((100000 : ℚ) + (1/2) * 900000) = 550000 := by norm_num
        rw [genOtp, hfl]
        rfl
      rw [genOtpStr, hv]
      decide
    exact (hb.2.2.1 hfresh).2 "000000" hgen 10
  · exact hb.2.2.2 "oldv" (by decide)
      (by intro w hw; obtain rfl := List.mem_singleton.mp hw; intro h'; rfl) "111111" 5

/-- C10: a mismatched code leaves the state untouched — the record is not
deleted and the user not modified — so a later call with the same
identifier and the correct code before expiry still succeeds. -/
theorem verifyOtp_mismatch_preserves_state (st : AuthState) (vid wrongOtp : String)
    (now now' : Nat) (v : EmailVerificationRec)
    (hfind : st.verifications.find?
      (fun w => decide (w.verificationId = vid ∧ now < w.expiresAt)) = some v)
    (hne : v.otp ≠ wrongOtp)
    (hle : now ≤ now') (hexp : now' < v.expiresAt)
    (hu : (st.users.find? (fun w => decide (w.email = v.email))).isSome) :
    verifyOtp vid wrongOtp now st = (st, .error "Invalid OTP") ∧
    ∃ res, (verifyOtp vid v.otp now' st).2 = .ok res := by
  constructor
  · exact verifyOtp_mismatch_eq vid wrongOtp now st v hfind hne
  · have hf' := verification_find?_mono vid now now' hle st.verifications v hfind hexp
    rcases hx : st.users.find? (fun w => decide (w.email = v.email)) with _ | u
    · rw [hx] at hu
      cases hu
    · exact ⟨_, by rw [verifyOtp_success_eq vid v.otp now' st v u hf' rfl hx]⟩

/-- C10 witness. -/
theorem verifyOtp_mismatch_preserves_state_witness :
    let rec0 : EmailVerificationRec :=
      { email := "a@b.c", otp := "111111", verificationId := "v1", expiresAt := 100 }
    let u0 : UserRec :=
      { userId := "u1", name := "A", email := "a@b.c", mobile := "1", password := "p",
        address := "x", isEmailVerified := false, lastLogin := none,
        emailVerificationToken := none, emailVerificationExpires := none }
    let stB : AuthState := { users := [u0], verifications := [rec0] }
    verifyOtp "v1" "999999" 0 stB = (stB, .error "Invalid OTP") ∧
    ∃ res, (verifyOtp "v1" "111111" 50 stB).2 = .ok res := by
  intro rec0 u0 stB
  exact verifyOtp_mismatch_preserves_state stB "v1" "999999" 0 50 rec0 rfl (by decide)
    (by norm_num) (by norm_num) rfl

/-- C6: for [{base 1000, Standard}, {base 1000, Premium}] the client
pricing pipeline yields per-item prices [1000, 2000], subtotal 3000,
tax round(3000 * 0.18) = 540 and total 3540. -/
theorem payment_pricing_example :
    let docTypes : List DocType :=
      [{ id := "aadhaar", name := "Aadhaar Card", basePrice := some 1000,
         udinRequired := false }]
    let order : List OrderItem :=
      [{ fileId := none, documentTypeId := some "aadhaar", fileName := some "a.pdf",
         tier := some "Standard" },
       { fileId := none, documentTypeId := some "aadhaar", fileName := some "b.pdf",
         tier := some "Premium" }]
    let items := normalizedOrderItems docTypes order
    items.map (fun it => it.price) = [1000, 2000] ∧
      subtotalOf items = 3000 ∧
      gstAmountOf (subtotalOf items) = 540 ∧
      totalAmountOf (subtotalOf items) (gstAmountOf (subtotalOf items)) = 3540 := by
  simp only [normalizedOrderItems, computeFilePriceINR, subtotalOf, gstAmountOf, totalAmountOf,
    tierMultiplier, jsRound, jsOrElse, stableItemKey, unitPrice, taxRate, List.enum,
    List.enumFrom, List.find?, List.foldl, List.map, String.reduceEq, reduceIte,
    Option.some.injEq, decide_eq_true_eq]
  norm_num

/-- C7: the backend `registerUser` creates the user with the
email-verified flag false, but the auth-service copy embedded in
Signup.tsx creates it with the flag already true — despite its own
comment announcing that email verification will be needed. -/
theorem registerUser_emailVerified_flag :
    let d : RegisterData :=
      { name := "Alice", email := "alice@example.com", mobile := "9999999999",
        password := "pw", address := "addr" }
    ((registerUser d "UDIN001" "tp" "hash" "vid1" (1/2) 0
        { users := [], verifications := [] }).1.users.map (fun u => u.isEmailVerified) =
      [false]) ∧
    ((registerUserSignupCopy d "UDIN001" "hash" "tok" 0
        { users := [], verifications := [] }).1.users.map (fun u => u.isEmailVerified) =
      [true]) := by
  constructor
  · rfl
  · rfl

/-- Every entry surviving the de-duplication filter has an identity
outside the seen set the filter started from. -/
theorem dedupe_not_mem_seen :
    ∀ (l : List RenderEntry) (seen : List String) (e : RenderEntry),
      e ∈ dedupeByIdentity seen l → e.identity ∉ seen := by
  intro l
  induction l with
  | nil => intro seen e he; cases he
  | cons f fs ih =>
    intro seen e he
    simp only [dedupeByIdentity] at he
    by_cases hf : f.identity ∈ seen
    · rw [if_pos hf] at he
      exact ih seen e he
    · rw [if_neg hf] at he
      rcases List.mem_cons.mp he with rfl | hmem
      · exact hf
      · have hni := ih _ e hmem
        intro hin
        exact hni (List.mem_cons_of_mem _ hin)

/-- The de-duplication filter yields pairwise-distinct identities. -/
theorem dedupe_map_nodup :
    ∀ (l : List RenderEntry) (seen : List String),
      ((dedupeByIdentity seen l).map (fun e => e.identity)).Nodup := by
  intro l
  induction l with
  | nil => intro seen; simp [dedupeByIdentity]
  | cons f fs ih =>
    intro seen
    simp only [dedupeByIdentity]
    by_cases hf : f.identity ∈ seen
    · rw [if_pos hf]
      exact ih seen
    · rw [if_neg hf]
      simp only [List.map_cons, List.nodup_cons]
      constructor
      · intro hmem
        rcases List.mem_map.mp hmem with ⟨e, he, heq⟩
        have hni := dedupe_not_mem_seen fs (f.identity :: seen) e he
        exact hni (by rw [heq]; exact List.mem_cons_self _ _)
      · exact ih _

/-- A list with pairwise-distinct identities, none already seen, passes
the de-duplication filter unchanged. -/
theorem dedupe_fixed :
    ∀ (l : List RenderEntry) (seen : List String),
      (∀ e ∈ l, e.identity ∉ seen) →
      ((l.map (fun e => e.identity)).Nodup) →
      dedupeByIdentity seen l = l := by
  intro l
  induction l with
  | nil => intro seen _ _; rfl
  | cons f fs ih =>
    intro seen hseen hnd
    simp only [List.map_cons, List.nodup_cons] at hnd
    simp only [dedupeByIdentity]
    rw [if_neg (hseen f (List.mem_cons_self _ _))]
    congr 1
    apply ih
    · intro e he
      intro hin
      rcases List.mem_cons.mp hin with heq | hmem
      · exact hnd.1 (List.mem_map.mpr ⟨e, he, heq⟩)
      · exact hseen e (List.mem_cons_of_mem _ he) hmem
    · exact hnd.2

/-- C8: the payment-page upload render list — built from namespaced,
deterministic identities and de-duplicated across the context and
IndexedDB sources — contains no duplicate identities, and de-duplicating
it again changes nothing (idempotence), so re-rendering the same items
produces no duplicate rows. -/
theorem uploadRenderList_dedup_idempotent (ctxFiles idbFiles : List SrcFile) :
    dedupeByIdentity [] (uploadRenderList ctxFiles idbFiles) =
      uploadRenderList ctxFiles idbFiles ∧
    ((uploadRenderList ctxFiles idbFiles).map (fun e => e.identity)).Nodup := by
  have hnd : ((uploadRenderList ctxFiles idbFiles).map (fun e => e.identity)).Nodup :=
    dedupe_map_nodup _ []
  exact ⟨dedupe_fixed _ [] (fun e _ => List.not_mem_nil _) hnd, hnd⟩
